import Mathlib

/-!
# Verification of the TClient session-orchestration layer

A shallow embedding of `src/TClient.py`.  The external transfer engine
(libtorrent), the feed parser (`feedparser`) and the regular-expression
engine (`re`) are external collaborators: their calls are modelled as
parameters or as recorded effect events, while every piece of orchestration
logic (configuration translation, feed deduplication, persistence, the
handle registry, shutdown) is translated directly from the source.
-/

/-- A value stored in a settings dictionary (`self.settings`,
`session.get_settings()`).  The Python dictionaries hold ints, strings and
booleans for the keys this layer touches. -/
inductive SettingVal
  | int (n : Int)
  | str (s : String)
  | bool (b : Bool)
deriving DecidableEq, Repr

/-- Python `dict` lookup (`d.get(k)` / `d[k]`) over an insertion-ordered
association list. -/
def lookupD {α : Type} : List (String × α) → String → Option α
  | [], _ => none
  | kv :: rest, k => if kv.1 = k then some kv.2 else lookupD rest k

/-- Python `dict` assignment `d[k] = v`: replaces the value at an existing
key in place, otherwise appends a new entry (insertion order preserved). -/
def setD {α : Type} : List (String × α) → String → α → List (String × α)
  | [], k, v => [(k, v)]
  | kv :: rest, k, v => if kv.1 = k then (k, v) :: rest else kv :: setD rest k v

/-- Python `dict.update(upds)`: assign every entry of `upds` in order. -/
def updateD {α : Type} (d : List (String × α)) (upds : List (String × α)) :
    List (String × α) :=
  upds.foldl (fun acc kv => setD acc kv.1 kv.2) d

/-- Membership of a string in a collection (Python `in` over a `set`,
here represented by its list of inserted elements). -/
def memS (x : String) : List String → Bool
  | [] => false
  | y :: rest => if y = x then true else memS x rest

/-- Whether the first character list is a prefix of the second. -/
def prefixOfList : List Char → List Char → Bool
  | [], _ => true
  | _ :: _, [] => false
  | c :: cs, d :: ds => if c = d then prefixOfList cs ds else false

/-- Python `s.startswith(p)` (also Lean's `String.startsWith`, restated over
the character list so that it evaluates inside the kernel). -/
def strStartsWith (s p : String) : Bool := prefixOfList p.data s.data

/-- Python `s.endswith(p)`. -/
def strEndsWith (s p : String) : Bool :=
  prefixOfList p.data.reverse s.data.reverse

/-- Python `s.strip()`: remove leading and trailing whitespace. -/
def strTrim (s : String) : String :=
  String.mk
    (((s.data.dropWhile Char.isWhitespace).reverse.dropWhile
        Char.isWhitespace).reverse)

/-- Drop the first `n` characters of a string. -/
def strDrop (s : String) (n : Nat) : String := String.mk (s.data.drop n)

/-- Python `int(rawValue)` on a string: optional surrounding whitespace,
optional sign, then decimal digits; any other shape raises `ValueError`,
modelled as `none`.  (Digit-group underscores and non-ASCII digits are not
modelled; no claim exercises them.) -/
def pyInt (s : String) : Option Int :=
  let t := strTrim s
  let (sign, digits) :=
    if strStartsWith t "-" then ((-1 : Int), strDrop t 1)
    else if strStartsWith t "+" then ((1 : Int), strDrop t 1)
    else ((1 : Int), t)
  if !digits.data.isEmpty && digits.data.all Char.isDigit then
    some (sign * Int.ofNat
      (digits.data.foldl (fun a c => a * 10 + (c.toNat - 48)) 0))
  else none

/-- One message printed to the interactive console (`console.print`),
modelled as a tagged event rather than by its rich-markup text. -/
inductive ConsoleMsg
  | unknownConfigKey (key : String)
  | invalidValueType (key : String)
  | configSetOk (key value : String)
  | invalidTorrentIndex
  | feedAdded (url : String)
  | feedExists
  | feedRemoved (url : String)
  | rssMatch (title : String)
  | queueMoved (index : Int) (action : String)
  | filePrioSet (fileIdx prio : Int)
  | piecePrioSet (pieceIdx prio : Int)
  | superSeedingSet (index : Int) (enable : Bool)
  | shareRatioSet (index : Int)
deriving DecidableEq, Repr

-- Basic dictionary lemmas

theorem lookupD_setD_self {α : Type} (d : List (String × α)) (k : String) (v : α) :
    lookupD (setD d k v) k = some v := by
  induction d with
  | nil => simp [setD, lookupD]
  | cons kv rest ih =>
    by_cases h : kv.1 = k
    · simp [setD, h, lookupD]
    · simp [setD, h, lookupD, ih]

theorem lookupD_setD_ne {α : Type} (d : List (String × α)) (k k' : String) (v : α)
    (h : k' ≠ k) : lookupD (setD d k v) k' = lookupD d k' := by
  have hkk' : ¬ k = k' := fun hh => h hh.symm
  induction d with
  | nil => simp [setD, lookupD, hkk']
  | cons kv rest ih =>
    by_cases hk : kv.1 = k
    · subst hk
      have hne : ¬ kv.1 = k' := fun hh => h hh.symm
      simp [setD, lookupD, hne]
    · simp [setD, hk, lookupD, ih]

theorem memS_append (x : String) (xs ys : List String) :
    memS x (xs ++ ys) = (memS x xs || memS x ys) := by
  induction xs with
  | nil => simp [memS]
  | cons a l ih =>
    by_cases h : a = x
    · simp [memS, h]
    · simp [memS, h, ih]

theorem memS_singleton_self (x : String) : memS x [x] = true := by
  simp [memS]

-- ## Feed automation (`RSSManager`)

/-- One feed definition `{'url': url, 'filter': regex_filter}`. -/
structure Feed where
  url : String
  filter : String
deriving DecidableEq, Repr

/-- One link of a parsed feed entry (a `feedparser` link object):
`link.get('type')` and `link.href`. -/
structure Link where
  linkType : Option String
  href : String
deriving DecidableEq, Repr

/-- One parsed feed entry: a title and its links. -/
structure Entry where
  title : String
  links : List Link
deriving DecidableEq, Repr

/-- The observable state of an `RSSManager`: the feed list, the history set
(as its list of inserted identifiers), the jobs submitted to the client via
`client.add_torrent`, the console events printed, and the sequence of full
rewrites of the feed-state file (each recording the complete serialized
`{'feeds': ..., 'history': ...}` contents). -/
structure RSSState where
  feeds : List Feed
  history : List String
  submitted : List String
  events : List ConsoleMsg
  fileWrites : List (List Feed × List String)
deriving DecidableEq, Repr

namespace RSSManager

/-- `RSSManager._save_state`: one synchronous full rewrite of the feed-state
file with the current feeds and history. -/
def save_state (st : RSSState) : RSSState :=
  { st with fileWrites := st.fileWrites ++ [(st.feeds, st.history)] }

/-- `RSSManager.add_feed(url, regex_filter=".*")`. -/
def add_feed (st : RSSState) (url : String) (regex_filter : String := ".*") :
    RSSState :=
  if st.feeds.any (fun f => f.url == url) then
    { st with events := st.events ++ [ConsoleMsg.feedExists] }
  else
    let st1 := save_state { st with feeds := st.feeds ++ [⟨url, regex_filter⟩] }
    { st1 with events := st1.events ++ [ConsoleMsg.feedAdded url] }

/-- `RSSManager.remove_feed(index)`. -/
def remove_feed (st : RSSState) (index : Int) : RSSState :=
  if 0 ≤ index ∧ index < (st.feeds.length : Int) then
    let removedUrl := ((st.feeds.get? index.toNat).map Feed.url).getD ""
    let st1 := save_state { st with feeds := st.feeds.eraseIdx index.toNat }
    { st1 with events := st1.events ++ [ConsoleMsg.feedRemoved removedUrl] }
  else st

/-- The link classification of `RSSManager.run`:
`link.get('type') == 'application/x-bittorrent' or link.href.startswith('magnet:')`. -/
def isTransferLink (l : Link) : Bool :=
  l.linkType == some "application/x-bittorrent" || strStartsWith l.href "magnet:"

/-- The inner `for link in entry.links` loop of `RSSManager.run` for one
matched entry: the first transfer-source link triggers (at most) one
submission — print, `client.add_torrent`, history insertion, `_save_state` —
and then `break`s out of the link scan. -/
def processLinks (title : String) (st : RSSState) : List Link → RSSState
  | [] => st
  | l :: rest =>
    if isTransferLink l then
      if memS l.href st.history then st
      else
        save_state
          { st with
            events := st.events ++ [ConsoleMsg.rssMatch title],
            submitted := st.submitted ++ [l.href],
            history := st.history ++ [l.href] }
    else processLinks title st rest

/-- One entry of the `for entry in feed.entries` loop of `RSSManager.run`.
The call `re.search(feed_info['filter'], entry.title, re.IGNORECASE)` is to
the external regular-expression engine; it is modelled by the abstract
matcher parameter `m` (pattern → title → matched). -/
def processEntry (m : String → String → Bool) (filt : String)
    (st : RSSState) (e : Entry) : RSSState :=
  if m filt e.title then processLinks e.title st e.links else st

/-- All entries of one fetched feed document, in order. -/
def runFeedPass (m : String → String → Bool) (filt : String)
    (entries : List Entry) (st : RSSState) : RSSState :=
  entries.foldl (processEntry m filt) st

/-- One full pass of `RSSManager.run` over the feed list.  The external
fetch `feedparser.parse(feed_info['url'])` is modelled by the parameter
`fetch` (a per-feed fetch failure, which the source logs and skips, is the
empty entry list). -/
def runPass (m : String → String → Bool) (fetch : String → List Entry)
    (st : RSSState) : RSSState :=
  st.feeds.foldl (fun s feed => runFeedPass m feed.filter (fetch feed.url) s) st

end RSSManager

-- ## The main client (`TorrentClient`)

/-- A per-job engine handle, as consumed by the orchestrator: its
content-hash key (`h.info_hash()`), and the `is_valid()` / `has_metadata()`
predicates queried at shutdown and in the priority commands. -/
structure JobHandle where
  infoHash : String
  isValid : Bool
  hasMetadata : Bool
deriving DecidableEq, Repr

/-- One control call issued to the external engine through a job handle. -/
inductive EngineCall
  | filePriority (hash : String) (fileIdx prio : Int)
  | piecePriority (hash : String) (pieceIdx prio : Int)
  | setFlagsSuperSeeding (hash : String)
  | unsetFlagsSuperSeeding (hash : String)
  | queuePositionUp (hash : String)
  | queuePositionDown (hash : String)
  | queuePositionTop (hash : String)
  | queuePositionBottom (hash : String)
  | setShareModeRatio (hash : String)
  | setShareRatioValue (hash : String) (r : Int)
deriving DecidableEq, Repr

/-- The observable state of a `TorrentClient`: the in-memory settings map
`self.settings`, the engine's applied settings (accumulated
`session.apply_settings` calls), the handle registry `self.handles`, the
console events, and the state-file paths written. -/
structure ClientState where
  settings : List (String × SettingVal)
  engine : List (String × SettingVal)
  handles : List JobHandle
  events : List ConsoleMsg
  fileWrites : List String
deriving DecidableEq, Repr

namespace TorrentClient

/-- The expected primitive type registered for a config key. -/
inductive VType
  | int
  | str
deriving DecidableEq, Repr

/-- `TorrentClient.CONFIG_MAP`: name ↦ (lt_setting_key, type, description). -/
def CONFIG_MAP : List (String × String × VType × String) :=
  [("cache_size_mb", ("cache_size", VType.int,
      "Cache size in 16KiB blocks. Value will be MB * 64.")),
   ("dl_limit_kb", ("download_rate_limit", VType.int,
      "Global download limit in KB/s. (0=inf)")),
   ("ul_limit_kb", ("upload_rate_limit", VType.int,
      "Global upload limit in KB/s. (0=inf)")),
   ("connections_limit", ("connections_limit", VType.int,
      "Global max connections.")),
   ("listen_port", ("listen_interfaces", VType.str,
      "Port to listen on, e.g., 0.0.0.0:6881")),
   ("encryption", ("pe_in_mode", VType.str,
      "Encryption: enable, force, disable"))]

/-- `final_value *= n` in `config_set`.  Reachable only when the registered
type is `int` (the `cache_size_mb` and `*_kb` keys), so only the `int` case
arises; other values pass through unchanged. -/
def svMul (v : SettingVal) (n : Int) : SettingVal :=
  match v with
  | SettingVal.int m => SettingVal.int (m * n)
  | v => v

/-- `emap.get(value, 1)` with `emap = {'enable': 1, 'force': 2, 'disable': 0}`. -/
def emapGet (value : String) : Int :=
  if value = "enable" then 1
  else if value = "force" then 2
  else if value = "disable" then 0
  else 1

/-- The `try` body's value conversion: `int(value)` for int-typed keys
(raising `ValueError`, i.e. `none`, on a malformed string), identity for
str-typed keys. -/
def convertValue (vty : VType) (value : String) : Option SettingVal :=
  match vty with
  | VType.int => (pyInt value).map SettingVal.int
  | VType.str => some (SettingVal.str value)

/-- `TorrentClient.config_set(key, value)`. -/
def config_set (st : ClientState) (key value : String) : ClientState :=
  match lookupD CONFIG_MAP key with
  | none => { st with events := st.events ++ [ConsoleMsg.unknownConfigKey key] }
  | some (lt_key, v_type, _) =>
    match convertValue v_type value with
    | none => { st with events := st.events ++ [ConsoleMsg.invalidValueType key] }
    | some fv0 =>
      let (final_value, st1) :=
        if key = "cache_size_mb" then (svMul fv0 64, st)
        else if strEndsWith key "_kb" then (svMul fv0 1024, st)
        else if key = "encryption" then
          let e := emapGet value
          (SettingVal.int e,
           { st with settings := setD st.settings "pe_out_mode" (SettingVal.int e) })
        else (fv0, st)
      { st1 with
        settings := setD st1.settings lt_key final_value,
        engine := setD st1.engine lt_key final_value,
        events := st1.events ++ [ConsoleMsg.configSetOk key value] }

/-- The display cell of `config_show` for the keys ending in `_kb`:
`f"{val / 1024} KB/s"`.  Python `/` is true division; this definition models
it for engine values that are exact multiples of 1024 (the only values the
claims evaluate), where the quotient is an exactly-representable float that
`str` prints as the integer followed by `.0`. -/
def kbDisplay (v : Int) : String := toString (v / 1024) ++ ".0 KB/s"

/-- The result of attempting to read and bdecode the session-state file:
absent, unreadable/corrupt, or a decoded `settings` sub-dictionary. -/
inductive SessionFileRead
  | absent
  | corrupt
  | ok (settingsEntries : List (String × SettingVal))
deriving DecidableEq, Repr

/-- `TorrentClient._load_state_and_config` (the `loadSession` contract): the
base `user_agent` entry, updated from the decoded file on success, or from
the documented defaults when the read or decode fails (every exception is
caught; the caller never sees a failure).  `all_categories` is the engine's
`lt.alert.category_t.all_categories` constant, passed as a parameter. -/
def load_state_and_config (all_categories : Int) (file : SessionFileRead) :
    List (String × SettingVal) :=
  let base := [("user_agent", SettingVal.str "TClient/Pro (libtorrent/2.0)")]
  match file with
  | SessionFileRead.ok entries => updateD base entries
  | _ =>
    updateD base
      [("listen_interfaces", SettingVal.str "0.0.0.0:6881, [::]:6881"),
       ("enable_dht", SettingVal.bool true),
       ("enable_upnp", SettingVal.bool true),
       ("enable_natpmp", SettingVal.bool true),
       ("alert_mask", SettingVal.int all_categories)]

/-- `TorrentClient._get_handle(index)`. -/
def get_handle (st : ClientState) (index : Int) :
    Option JobHandle × ClientState :=
  if 0 ≤ index ∧ index < (st.handles.length : Int) then
    (st.handles.get? index.toNat, st)
  else
    (none, { st with events := st.events ++ [ConsoleMsg.invalidTorrentIndex] })

/-- `TorrentClient.set_torrent_file_priority(index, file_idx, priority)`. -/
def set_torrent_file_priority (st : ClientState)
    (index file_idx priority : Int) : ClientState × List EngineCall :=
  match get_handle st index with
  | (some h, st1) =>
    if h.hasMetadata then
      ({ st1 with events := st1.events ++ [ConsoleMsg.filePrioSet file_idx priority] },
       [EngineCall.filePriority h.infoHash file_idx priority])
    else (st1, [])
  | (none, st1) => (st1, [])

/-- `TorrentClient.set_torrent_piece_priority(index, piece_idx, priority)`. -/
def set_torrent_piece_priority (st : ClientState)
    (index piece_idx priority : Int) : ClientState × List EngineCall :=
  match get_handle st index with
  | (some h, st1) =>
    ({ st1 with events := st1.events ++ [ConsoleMsg.piecePrioSet piece_idx priority] },
     [EngineCall.piecePriority h.infoHash piece_idx priority])
  | (none, st1) => (st1, [])

/-- `TorrentClient.toggle_super_seeding(index, enable)`. -/
def toggle_super_seeding (st : ClientState) (index : Int) (enable : Bool) :
    ClientState × List EngineCall :=
  match get_handle st index with
  | (some h, st1) =>
    ({ st1 with events := st1.events ++ [ConsoleMsg.superSeedingSet index enable] },
     [if enable then EngineCall.setFlagsSuperSeeding h.infoHash
      else EngineCall.unsetFlagsSuperSeeding h.infoHash])
  | (none, st1) => (st1, [])

/-- `TorrentClient.queue_torrent(index, action)`. -/
def queue_torrent (st : ClientState) (index : Int) (action : String) :
    ClientState × List EngineCall :=
  match get_handle st index with
  | (some h, st1) =>
    let call :=
      if action = "up" then some (EngineCall.queuePositionUp h.infoHash)
      else if action = "down" then some (EngineCall.queuePositionDown h.infoHash)
      else if action = "top" then some (EngineCall.queuePositionTop h.infoHash)
      else if action = "bottom" then some (EngineCall.queuePositionBottom h.infoHash)
      else none
    match call with
    | some c =>
      ({ st1 with events := st1.events ++ [ConsoleMsg.queueMoved index action] }, [c])
    | none => (st1, [])
  | (none, st1) => (st1, [])

/-- `TorrentClient.set_share_ratio(index, ratio)`.  The float ratio is
carried as an opaque integer-valued parameter; no claim depends on its
arithmetic. -/
def set_share_ratio (st : ClientState) (index : Int) (r : Int) :
    ClientState × List EngineCall :=
  match get_handle st index with
  | (some h, st1) =>
    ({ st1 with events := st1.events ++ [ConsoleMsg.shareRatioSet index] },
     [EngineCall.setShareModeRatio h.infoHash,
      EngineCall.setShareRatioValue h.infoHash r])
  | (none, st1) => (st1, [])

end TorrentClient

namespace TorrentClient

/-- What `TorrentClient.shutdown` observably does, in order: the RSS
manager is shut down (final feed-state save), the session-state file is
written, one resume-data request is issued per valid handle with metadata,
and the procedure then sleeps a fixed interval before joining the alert
thread and reporting completion. -/
structure ShutdownTrace where
  rssFinalSave : Bool
  sessionFileWritten : Bool
  resumeRequests : List String
  sleepSeconds : Nat
  confirmationsAtAdvance : Nat
  completed : Bool
deriving DecidableEq, Repr

/-- `TorrentClient.shutdown`.  `confirmedWithinSleep` is the number of
`save_resume_data_alert`s the engine delivered (and the alert loop wrote to
disk) during the fixed `time.sleep(2)`; the source advances unconditionally
after the sleep — it consults no count and no job-key set — so the trace
completes whatever this number is. -/
def shutdown (handles : List JobHandle) (confirmedWithinSleep : Nat) :
    ShutdownTrace :=
  { rssFinalSave := true
    sessionFileWritten := true
    resumeRequests :=
      (handles.filter (fun h => h.isValid && h.hasMetadata)).map JobHandle.infoHash
    sleepSeconds := 2
    confirmationsAtAdvance := confirmedWithinSleep
    completed := true }

/-- One observable filesystem operation. -/
inductive FsOp
  | openTrunc (path : String)
  | writeChunk (path : String) (data : List Nat)
  | rename (fromPath toPath : String)
deriving DecidableEq, Repr

/-- The `save_resume_data_alert` branch of `TorrentClient._alert_loop`
(the `saveJobResume` contract):
`with open(os.path.join(RESUME_DATA_DIR, f"{h.info_hash()}.fastresume"), 'wb') as f: f.write(resume_data)`
— the file at its final name is opened for truncating write and the blob is
written to it directly; no temporary name and no rename are involved. -/
def saveJobResume (infoHash : String) (resume_data : List Nat) : List FsOp :=
  [FsOp.openTrunc (infoHash ++ ".fastresume"),
   FsOp.writeChunk (infoHash ++ ".fastresume") resume_data]

/-- Effect of one filesystem operation on a directory (path ↦ contents). -/
def runFsOp (fs : List (String × List Nat)) : FsOp → List (String × List Nat)
  | FsOp.openTrunc p => setD fs p []
  | FsOp.writeChunk p d => setD fs p (((lookupD fs p).getD []) ++ d)
  | FsOp.rename src dst =>
    match lookupD fs src with
    | some d => setD (fs.filter (fun kv => !(kv.1 == src))) dst d
    | none => fs

/-- The sequence of directory states an operation list passes through,
starting from `fs` (the state after each prefix of the operations). -/
def traceStates (fs : List (String × List Nat)) : List FsOp →
    List (List (String × List Nat))
  | [] => [fs]
  | op :: rest => fs :: traceStates (runFsOp fs op) rest

end TorrentClient

namespace RSSManager

/-- `processLinks` in closed form: its effect is decided by the first
transfer-source link (Python's `break` makes later links unreachable). -/
theorem processLinks_eq_find (title : String) (st : RSSState) (ls : List Link) :
    processLinks title st ls =
      match ls.find? isTransferLink with
      | none => st
      | some l =>
        if memS l.href st.history then st
        else
          save_state
            { st with
              events := st.events ++ [ConsoleMsg.rssMatch title],
              submitted := st.submitted ++ [l.href],
              history := st.history ++ [l.href] } := by
  induction ls with
  | nil => rfl
  | cons l rest ih =>
    cases h : isTransferLink l
    · have hfind : List.find? isTransferLink (l :: rest) =
          List.find? isTransferLink rest :=
        List.find?_cons_of_neg _ (by simp [h])
      simpa [processLinks, h, hfind] using ih
    · simp [processLinks, h, List.find?_cons_of_pos _ h]

/-- A link list is settled for a history set when its first transfer-source
link (if any) is already recorded there. -/
def linksDone (hist : List String) : List Link → Bool
  | [] => true
  | l :: rest => if isTransferLink l then memS l.href hist else linksDone hist rest

theorem linksDone_eq_find (hist : List String) (ls : List Link) :
    linksDone hist ls =
      match ls.find? isTransferLink with
      | none => true
      | some l => memS l.href hist := by
  induction ls with
  | nil => rfl
  | cons l rest ih =>
    cases h : isTransferLink l
    · have hfind : List.find? isTransferLink (l :: rest) =
          List.find? isTransferLink rest :=
        List.find?_cons_of_neg _ (by simp [h])
      simpa [linksDone, h, hfind] using ih
    · simp [linksDone, h, List.find?_cons_of_pos _ h]

theorem linksDone_mono (h1 h2 : List String) (ls : List Link)
    (hsub : ∀ x, memS x h1 = true → memS x h2 = true)
    (hd : linksDone h1 ls = true) : linksDone h2 ls = true := by
  cases hf : ls.find? isTransferLink with
  | none => simp [linksDone_eq_find, hf]
  | some l =>
    simp [linksDone_eq_find, hf] at hd
    simp [linksDone_eq_find, hf, hsub _ hd]

theorem processLinks_feeds (title : String) (st : RSSState) (ls : List Link) :
    (processLinks title st ls).feeds = st.feeds := by
  rw [processLinks_eq_find]
  cases hf : ls.find? isTransferLink with
  | none => rfl
  | some l =>
    by_cases hm : memS l.href st.history = true
    · simp [hm]
    · simp [hm, save_state]

theorem processLinks_hist_mono (title : String) (st : RSSState) (ls : List Link)
    (x : String) (h : memS x st.history = true) :
    memS x (processLinks title st ls).history = true := by
  rw [processLinks_eq_find]
  cases hf : ls.find? isTransferLink with
  | none => exact h
  | some l =>
    by_cases hm : memS l.href st.history = true
    · simp [hm, h]
    · simp [hm, save_state, memS_append, h]

theorem processLinks_of_done (title : String) (st : RSSState) (ls : List Link)
    (h : linksDone st.history ls = true) : processLinks title st ls = st := by
  rw [processLinks_eq_find]
  cases hf : ls.find? isTransferLink with
  | none => rfl
  | some l =>
    simp [linksDone_eq_find, hf] at h
    simp [h]

theorem processLinks_post (title : String) (st : RSSState) (ls : List Link) :
    linksDone (processLinks title st ls).history ls = true := by
  cases hf : ls.find? isTransferLink with
  | none => simp [linksDone_eq_find, hf]
  | some l =>
    by_cases hm : memS l.href st.history = true
    · simp [linksDone_eq_find, hf, processLinks_eq_find, hm]
    · simp [linksDone_eq_find, hf, processLinks_eq_find, hm, save_state,
        memS_append, memS_singleton_self]

/-- An entry is settled for a history set when it does not match, or its
link list is settled. -/
def entryDone (m : String → String → Bool) (filt : String)
    (hist : List String) (e : Entry) : Bool :=
  !(m filt e.title) || linksDone hist e.links

theorem entryDone_mono (m : String → String → Bool) (filt : String)
    (h1 h2 : List String) (e : Entry)
    (hsub : ∀ x, memS x h1 = true → memS x h2 = true)
    (hd : entryDone m filt h1 e = true) : entryDone m filt h2 e = true := by
  unfold entryDone at hd ⊢
  cases hm : m filt e.title
  · simp
  · simp [hm] at hd ⊢
    exact linksDone_mono _ _ _ hsub hd

theorem processEntry_of_done (m : String → String → Bool) (filt : String)
    (st : RSSState) (e : Entry)
    (h : entryDone m filt st.history e = true) : processEntry m filt st e = st := by
  unfold processEntry
  cases hm : m filt e.title
  · simp
  · unfold entryDone at h
    simp [hm] at h
    simp [processLinks_of_done _ _ _ h]

theorem processEntry_post (m : String → String → Bool) (filt : String)
    (st : RSSState) (e : Entry) :
    entryDone m filt (processEntry m filt st e).history e = true := by
  unfold processEntry entryDone
  cases hm : m filt e.title
  · simp
  · simp [hm, processLinks_post]

theorem processEntry_feeds (m : String → String → Bool) (filt : String)
    (st : RSSState) (e : Entry) : (processEntry m filt st e).feeds = st.feeds := by
  unfold processEntry
  cases hm : m filt e.title
  · simp
  · simp [processLinks_feeds]

theorem processEntry_hist_mono (m : String → String → Bool) (filt : String)
    (st : RSSState) (e : Entry) (x : String) (h : memS x st.history = true) :
    memS x (processEntry m filt st e).history = true := by
  unfold processEntry
  cases hm : m filt e.title
  · simp [h]
  · simp [processLinks_hist_mono _ _ _ _ h]

theorem runFeedPass_hist_mono (m : String → String → Bool) (filt : String)
    (entries : List Entry) : ∀ (st : RSSState) (x : String),
    memS x st.history = true →
    memS x (runFeedPass m filt entries st).history = true := by
  induction entries with
  | nil => intro st x h; simpa [runFeedPass] using h
  | cons a rest ih =>
    intro st x h
    simp only [runFeedPass, List.foldl_cons]
    exact ih _ _ (processEntry_hist_mono _ _ _ _ _ h)

theorem runFeedPass_feeds (m : String → String → Bool) (filt : String)
    (entries : List Entry) : ∀ st : RSSState,
    (runFeedPass m filt entries st).feeds = st.feeds := by
  induction entries with
  | nil => intro st; rfl
  | cons a rest ih =>
    intro st
    simp only [runFeedPass, List.foldl_cons]
    rw [show (rest.foldl (processEntry m filt) (processEntry m filt st a)) =
      runFeedPass m filt rest (processEntry m filt st a) from rfl, ih]
    exact processEntry_feeds _ _ _ _

theorem runFeedPass_post (m : String → String → Bool) (filt : String)
    (entries : List Entry) : ∀ (st : RSSState) (e : Entry), e ∈ entries →
    entryDone m filt (runFeedPass m filt entries st).history e = true := by
  induction entries with
  | nil => intro st e h; cases h
  | cons a rest ih =>
    intro st e h
    simp only [runFeedPass, List.foldl_cons]
    rcases List.mem_cons.mp h with he | he
    · subst he
      exact entryDone_mono _ _ _ _ _
        (fun x hx => runFeedPass_hist_mono m filt rest _ x hx)
        (processEntry_post m filt st e)
    · exact ih _ _ he

theorem runFeedPass_of_done (m : String → String → Bool) (filt : String)
    (entries : List Entry) : ∀ st : RSSState,
    (∀ e ∈ entries, entryDone m filt st.history e = true) →
    runFeedPass m filt entries st = st := by
  induction entries with
  | nil => intro st _; rfl
  | cons a rest ih =>
    intro st h
    have ha := processEntry_of_done m filt st a (h a (by simp))
    simp only [runFeedPass, List.foldl_cons, ha]
    exact ih st (fun e he => h e (by simp [he]))

end RSSManager

namespace RSSManager

/-- `runPass` generalized over the feed list being iterated (the source
iterates `self.feeds`, which the pass itself never modifies). -/
def runPassAux (m : String → String → Bool) (fetch : String → List Entry)
    (feeds : List Feed) (st : RSSState) : RSSState :=
  feeds.foldl (fun s feed => runFeedPass m feed.filter (fetch feed.url) s) st

theorem runPass_eq_aux (m : String → String → Bool) (fetch : String → List Entry)
    (st : RSSState) : runPass m fetch st = runPassAux m fetch st.feeds st := rfl

theorem runPassAux_hist_mono (m : String → String → Bool)
    (fetch : String → List Entry) (feeds : List Feed) :
    ∀ (st : RSSState) (x : String), memS x st.history = true →
    memS x (runPassAux m fetch feeds st).history = true := by
  induction feeds with
  | nil => intro st x h; simpa [runPassAux] using h
  | cons f rest ih =>
    intro st x h
    simp only [runPassAux, List.foldl_cons]
    exact ih _ _ (runFeedPass_hist_mono _ _ _ _ _ h)

theorem runPassAux_feeds (m : String → String → Bool)
    (fetch : String → List Entry) (feeds : List Feed) :
    ∀ st : RSSState, (runPassAux m fetch feeds st).feeds = st.feeds := by
  induction feeds with
  | nil => intro st; rfl
  | cons f rest ih =>
    intro st
    simp only [runPassAux, List.foldl_cons]
    rw [show (rest.foldl (fun s feed => runFeedPass m feed.filter (fetch feed.url) s)
        (runFeedPass m f.filter (fetch f.url) st)) =
      runPassAux m fetch rest (runFeedPass m f.filter (fetch f.url) st) from rfl, ih]
    exact runFeedPass_feeds _ _ _ _

theorem runPassAux_post (m : String → String → Bool)
    (fetch : String → List Entry) (feeds : List Feed) :
    ∀ (st : RSSState) (f : Feed) (e : Entry), f ∈ feeds → e ∈ fetch f.url →
    entryDone m f.filter (runPassAux m fetch feeds st).history e = true := by
  induction feeds with
  | nil => intro st f e hf _; cases hf
  | cons a rest ih =>
    intro st f e hf he
    simp only [runPassAux, List.foldl_cons]
    rcases List.mem_cons.mp hf with hfa | hfa
    · subst hfa
      exact entryDone_mono _ _ _ _ _
        (fun x hx => runPassAux_hist_mono m fetch rest _ x hx)
        (runFeedPass_post m f.filter (fetch f.url) st e he)
    · exact ih _ _ _ hfa he

theorem runPassAux_of_done (m : String → String → Bool)
    (fetch : String → List Entry) (feeds : List Feed) :
    ∀ st : RSSState,
    (∀ f ∈ feeds, ∀ e ∈ fetch f.url, entryDone m f.filter st.history e = true) →
    runPassAux m fetch feeds st = st := by
  induction feeds with
  | nil => intro st _; rfl
  | cons a rest ih =>
    intro st h
    have ha := runFeedPass_of_done m a.filter (fetch a.url) st
      (fun e he => h a (by simp) e he)
    simp only [runPassAux, List.foldl_cons, ha]
    exact ih st (fun f hf e he => h f (by simp [hf]) e he)

/-- A full feed pass is idempotent: everything the first pass could submit
is in the history set afterwards, so a second pass over the same fetched
entries changes nothing at all. -/
theorem runPass_idem (m : String → String → Bool) (fetch : String → List Entry)
    (st : RSSState) :
    runPass m fetch (runPass m fetch st) = runPass m fetch st := by
  rw [runPass_eq_aux m fetch (runPass m fetch st),
    runPass_eq_aux m fetch st, runPassAux_feeds]
  exact runPassAux_of_done m fetch st.feeds _
    (fun f hf e he => runPassAux_post m fetch st.feeds st f e hf he)

end RSSManager

-- ## Concrete fixtures used by witnesses and counterexamples

/-- The client state right after `__init__` on a first run (no prior session
file): the `user_agent` base entry; no handles, no events, no writes yet. -/
def initClient : ClientState :=
  { settings := [("user_agent", SettingVal.str "TClient/Pro (libtorrent/2.0)")],
    engine := [], handles := [], events := [], fileWrites := [] }

/-- An empty feed-manager state. -/
def rssEmpty : RSSState :=
  { feeds := [], history := [], submitted := [], events := [], fileWrites := [] }

/-- The scenario entry of §8: title `"Movie.1080p.WEB"`, one non-transfer
link followed by one magnet-scheme link. -/
def movieEntry : Entry :=
  { title := "Movie.1080p.WEB",
    links := [{ linkType := some "text/html", href := "http://example.com/page" },
              { linkType := none, href := "magnet:?xt=1" }] }

open RSSManager TorrentClient

/-- Helper: `config_set` never writes a state file, in any branch. -/
theorem config_set_fileWrites (st : ClientState) (key value : String) :
    (config_set st key value).fileWrites = st.fileWrites := by
  unfold TorrentClient.config_set
  cases lookupD CONFIG_MAP key with
  | none => rfl
  | some kv =>
    obtain ⟨lt_key, v_type, desc⟩ := kv
    dsimp only
    cases convertValue v_type value with
    | none => rfl
    | some fv0 =>
      dsimp only
      by_cases h1 : key = "cache_size_mb"
      · simp [h1]
      · cases h2 : strEndsWith key "_kb"
        · by_cases h3 : key = "encryption"
          · simp [h1, h2, h3]
          · simp [h1, h2, h3]
        · simp [h1, h2]

/-- Helper: `config_set` on the key `"encryption"` in closed form. -/
theorem config_set_encryption_eq (st : ClientState) (v : String) :
    config_set st "encryption" v =
      { st with
        settings := setD (setD st.settings "pe_out_mode"
            (SettingVal.int (emapGet v)))
          "pe_in_mode" (SettingVal.int (emapGet v)),
        engine := setD st.engine "pe_in_mode" (SettingVal.int (emapGet v)),
        events := st.events ++ [ConsoleMsg.configSetOk "encryption" v] } := rfl

-- ## The claims

/-- C1: the claim states that shutdown issues exactly N resume-data requests
and then does not advance past the wait step until a confirmation has been
observed for every requested job or a bounded timeout elapses, tracking
outstanding requests by count or key set.  The source issues the N requests
but then waits with a fixed `time.sleep(2)`: at the concrete failing input —
one valid job handle with metadata whose resume-data alert does not arrive
within the 2 seconds — the procedure still completes, advancing past the
wait with 0 of 1 requested confirmations and no tracking of the outstanding
set. -/
theorem c1_shutdown_fixed_sleep_demo :
    (shutdown [⟨"abc", true, true⟩] 0).resumeRequests = ["abc"] ∧
    (shutdown [⟨"abc", true, true⟩] 0).sleepSeconds = 2 ∧
    (shutdown [⟨"abc", true, true⟩] 0).confirmationsAtAdvance = 0 ∧
    (shutdown [⟨"abc", true, true⟩] 0).completed = true := by decide

/-- C2 counterexample: `config_set("dl_limit_kb", "500")` mutates the
durable in-memory settings map yet returns without writing any state file,
refuting the claim that every durable-settings mutation is followed by a
synchronous full-file rewrite before the call returns. -/
theorem c2_config_set_no_file_write :
    (config_set initClient "dl_limit_kb" "500").settings ≠ initClient.settings ∧
    (config_set initClient "dl_limit_kb" "500").fileWrites =
      initClient.fileWrites := by decide

/-- C2 amended: feed-definition and feed-history mutations (`add_feed` with
a new URL, `remove_feed` with an in-range index) each synchronously rewrite
the full feed-state file before returning, while `config_set` mutates only
the in-memory settings and live engine settings and writes no state file —
the session-state file is written during shutdown. -/
theorem c2_sync_persistence_amended (st st2 : RSSState) (url filt : String)
    (index : Int) (cst : ClientState) (key value : String)
    (m : String → String → Bool) (pat : String) (e : Entry) (l : Link)
    (hnew : st.feeds.any (fun f => f.url == url) = false)
    (hidx : 0 ≤ index ∧ index < (st.feeds.length : Int))
    (hm : m pat e.title = true)
    (hfirst : e.links.find? isTransferLink = some l)
    (hnot : memS l.href st2.history = false) :
    (add_feed st url filt).fileWrites =
      st.fileWrites ++ [(st.feeds ++ [⟨url, filt⟩], st.history)] ∧
    (remove_feed st index).fileWrites =
      st.fileWrites ++ [(st.feeds.eraseIdx index.toNat, st.history)] ∧
    (processEntry m pat st2 e).fileWrites =
      st2.fileWrites ++ [(st2.feeds, st2.history ++ [l.href])] ∧
    (config_set cst key value).fileWrites = cst.fileWrites ∧
    (∀ (hs : List JobHandle) (c : Nat), (shutdown hs c).sessionFileWritten = true) := by
  refine ⟨?_, ?_, ?_, config_set_fileWrites cst key value, fun hs c => rfl⟩
  · simp [RSSManager.add_feed, hnew, RSSManager.save_state]
  · simp [RSSManager.remove_feed, hidx, RSSManager.save_state]
  · have hpe : processEntry m pat st2 e = processLinks e.title st2 e.links := by
      unfold RSSManager.processEntry
      simp [hm]
    rw [hpe]
    simp [processLinks_eq_find, hfirst, hnot, RSSManager.save_state]

/-- C2 amended, witness at concrete inputs: a new feed URL, an in-range
removal, a new-match history insertion on the §8 scenario entry, and a
config mutation. -/
theorem c2_sync_persistence_witness :
    (add_feed { rssEmpty with feeds := [⟨"http://a", ".*"⟩] } "http://b" ".*").fileWrites =
      [([⟨"http://a", ".*"⟩, ⟨"http://b", ".*"⟩], [])] ∧
    (remove_feed { rssEmpty with feeds := [⟨"http://a", ".*"⟩] } 0).fileWrites =
      [([], [])] ∧
    (processEntry (fun _ t => memS t ["Movie.1080p.WEB"]) "1080p" rssEmpty
        movieEntry).fileWrites = [([], ["magnet:?xt=1"])] ∧
    (config_set initClient "dl_limit_kb" "500").fileWrites = [] ∧
    (∀ (hs : List JobHandle) (c : Nat), (shutdown hs c).sessionFileWritten = true) := by
  have h := c2_sync_persistence_amended { rssEmpty with feeds := [⟨"http://a", ".*"⟩] }
    rssEmpty "http://b" ".*" 0 initClient "dl_limit_kb" "500"
    (fun _ t => memS t ["Movie.1080p.WEB"]) "1080p" movieEntry
    ⟨none, "magnet:?xt=1"⟩ (by decide) (by decide) (by decide) (by decide) (by decide)
  exact h

/-- C3: the claim states that the resume-data-ready handler writes each
resume file via a temporary name and rename so that the final-named file is
never observable half written.  The source writes directly: it truncate-opens
the final-named file and writes the blob into it, so the directory passes
through an intermediate state in which `abc.fastresume` exists with contents
`[]`, a strict prefix of the blob `[7, 8]`, and no rename operation occurs. -/
theorem c3_resume_direct_write_demo :
    saveJobResume "abc" [7, 8] =
      [FsOp.openTrunc "abc.fastresume", FsOp.writeChunk "abc.fastresume" [7, 8]] ∧
    (saveJobResume "abc" [7, 8]).all
      (fun op => match op with
        | FsOp.rename _ _ => false
        | _ => true) = true ∧
    traceStates [] (saveJobResume "abc" [7, 8]) =
      [[], [("abc.fastresume", [])], [("abc.fastresume", [7, 8])]] ∧
    lookupD [("abc.fastresume", ([] : List Nat))] "abc.fastresume" ≠
      some [7, 8] := by decide

/-- C4: when a feed entry's title matches the feed pattern, the first
transfer-source link decides everything: if its identifier is new, exactly
one job is submitted, the identifier enters the history, and the feed state
is persisted in full; if it is already in the history, the entry is a no-op;
an entry never submits more than one job per pass; and a second full pass
over the same fetched entries submits nothing (it changes nothing at all). -/
theorem c4_feed_entry_dedup (m : String → String → Bool)
    (fetch : String → List Entry) (filt : String) (st st0 : RSSState)
    (e : Entry) (l : Link)
    (hm : m filt e.title = true)
    (hfirst : e.links.find? isTransferLink = some l) :
    (memS l.href st.history = false →
       (processEntry m filt st e).submitted = st.submitted ++ [l.href] ∧
       (processEntry m filt st e).history = st.history ++ [l.href] ∧
       (processEntry m filt st e).fileWrites =
         st.fileWrites ++ [(st.feeds, st.history ++ [l.href])]) ∧
    (memS l.href st.history = true → processEntry m filt st e = st) ∧
    (processEntry m filt st e).submitted.length ≤ st.submitted.length + 1 ∧
    runPass m fetch (runPass m fetch st0) = runPass m fetch st0 := by
  have hpe : processEntry m filt st e = processLinks e.title st e.links := by
    unfold RSSManager.processEntry
    simp [hm]
  refine ⟨?_, ?_, ?_, runPass_idem m fetch st0⟩
  · intro hnot
    rw [hpe]
    simp [processLinks_eq_find, hfirst, hnot, RSSManager.save_state]
  · intro hyes
    rw [hpe]
    simp [processLinks_eq_find, hfirst, hyes]
  · rw [hpe]
    by_cases hin : memS l.href st.history = true
    · simp [processLinks_eq_find, hfirst, hin]
    · simp [processLinks_eq_find, hfirst, hin, RSSManager.save_state]

/-- C4 witness: the §8 scenario — pattern `"1080p"`, entry
`"Movie.1080p.WEB"` with one non-transfer link and one magnet link — submits
exactly the magnet link, records it, persists, and a repeated pass over the
same feed changes nothing. -/
theorem c4_feed_entry_dedup_witness :
    (processEntry (fun _ t => memS t ["Movie.1080p.WEB"]) "1080p" rssEmpty
        movieEntry).submitted = rssEmpty.submitted ++ ["magnet:?xt=1"] ∧
    runPass (fun _ t => memS t ["Movie.1080p.WEB"])
        (fun _ => [movieEntry])
        (runPass (fun _ t => memS t ["Movie.1080p.WEB"])
          (fun _ => [movieEntry]) rssEmpty) =
      runPass (fun _ t => memS t ["Movie.1080p.WEB"])
        (fun _ => [movieEntry]) rssEmpty := by
  have h := c4_feed_entry_dedup (fun _ t => memS t ["Movie.1080p.WEB"])
    (fun _ => [movieEntry]) "1080p" rssEmpty rssEmpty movieEntry
    ⟨none, "magnet:?xt=1"⟩ (by decide) (by decide)
  exact ⟨(h.1 (by decide)).1, h.2.2.2⟩

/-- C5 counterexample: `config_set("dl_limit_kb", "500")` does set the
engine-native download-rate limit to 512000, but the `config_show` display
conversion renders `"500.0 KB/s"` (Python true division yields a float whose
string form carries a trailing `.0`), not `"500"`. -/
theorem c5_render_counterexample :
    lookupD (config_set initClient "dl_limit_kb" "500").engine
        "download_rate_limit" = some (SettingVal.int 512000) ∧
    kbDisplay 512000 = "500.0 KB/s" ∧
    kbDisplay 512000 ≠ "500" := by decide

/-- C5 amended: `config_set("dl_limit_kb", "500")` sets the engine-native
download-rate-limit setting (and the in-memory settings entry) to exactly
512000, and the display conversion for `dl_limit_kb` then renders
`"500.0 KB/s"`. -/
theorem c5_limit_translation_amended :
    lookupD (config_set initClient "dl_limit_kb" "500").engine
        "download_rate_limit" = some (SettingVal.int 512000) ∧
    lookupD (config_set initClient "dl_limit_kb" "500").settings
        "download_rate_limit" = some (SettingVal.int 512000) ∧
    kbDisplay 512000 = "500.0 KB/s" := by decide

/-- C6: `config_set` reports an error when the key is not in `CONFIG_MAP`,
and when the raw value cannot be converted to the registered primitive type
(`int(value)` raises), and in both failure cases the in-memory settings map,
the applied engine settings and the handle registry are left unchanged, with
exactly one error message reported. -/
theorem c6_config_set_failure_no_change (st : ClientState) (key value : String)
    (h : lookupD CONFIG_MAP key = none ∨
         (∃ lt_key desc, lookupD CONFIG_MAP key =
            some (lt_key, VType.int, desc) ∧ pyInt value = none)) :
    (config_set st key value).settings = st.settings ∧
    (config_set st key value).engine = st.engine ∧
    (config_set st key value).handles = st.handles ∧
    ((config_set st key value).events =
        st.events ++ [ConsoleMsg.unknownConfigKey key] ∨
     (config_set st key value).events =
        st.events ++ [ConsoleMsg.invalidValueType key]) := by
  rcases h with hk | ⟨lt_key, desc, hk, hv⟩
  · unfold TorrentClient.config_set
    rw [hk]
    exact ⟨rfl, rfl, rfl, Or.inl rfl⟩
  · unfold TorrentClient.config_set
    rw [hk]
    dsimp only
    have hcv : convertValue VType.int value = none := by
      simp [TorrentClient.convertValue, hv]
    rw [hcv]
    exact ⟨rfl, rfl, rfl, Or.inr rfl⟩

/-- C6 witness: an unrecognized key and a malformed int value, on the
initial client state. -/
theorem c6_config_set_failure_witness :
    ((config_set initClient "bogus" "1").settings = initClient.settings ∧
     (config_set initClient "bogus" "1").engine = initClient.engine ∧
     (config_set initClient "bogus" "1").handles = initClient.handles ∧
     ((config_set initClient "bogus" "1").events =
         initClient.events ++ [ConsoleMsg.unknownConfigKey "bogus"] ∨
      (config_set initClient "bogus" "1").events =
         initClient.events ++ [ConsoleMsg.invalidValueType "bogus"])) ∧
    ((config_set initClient "dl_limit_kb" "abc").settings = initClient.settings ∧
     (config_set initClient "dl_limit_kb" "abc").engine = initClient.engine ∧
     (config_set initClient "dl_limit_kb" "abc").handles = initClient.handles ∧
     ((config_set initClient "dl_limit_kb" "abc").events =
         initClient.events ++ [ConsoleMsg.unknownConfigKey "dl_limit_kb"] ∨
      (config_set initClient "dl_limit_kb" "abc").events =
         initClient.events ++ [ConsoleMsg.invalidValueType "dl_limit_kb"])) := by
  constructor
  · exact c6_config_set_failure_no_change initClient "bogus" "1" (Or.inl (by decide))
  · exact c6_config_set_failure_no_change initClient "dl_limit_kb" "abc"
      (Or.inr ⟨"download_rate_limit", "Global download limit in KB/s. (0=inf)",
        by decide, by decide⟩)

/-- C7: when the session-state file is absent or corrupt, loading never
fails the caller (the embedding is a total function into the settings map)
and yields the documented defaults: DHT, UPnP and NAT-PMP enabled, the
non-empty listen address `"0.0.0.0:6881, [::]:6881"`, and the alert mask set
to the engine's all-categories constant. -/
theorem c7_load_session_defaults (all_categories : Int)
    (file : SessionFileRead)
    (h : file = SessionFileRead.absent ∨ file = SessionFileRead.corrupt) :
    lookupD (load_state_and_config all_categories file) "enable_dht"
      = some (SettingVal.bool true) ∧
    lookupD (load_state_and_config all_categories file) "enable_upnp"
      = some (SettingVal.bool true) ∧
    lookupD (load_state_and_config all_categories file) "enable_natpmp"
      = some (SettingVal.bool true) ∧
    lookupD (load_state_and_config all_categories file) "listen_interfaces"
      = some (SettingVal.str "0.0.0.0:6881, [::]:6881") ∧
    "0.0.0.0:6881, [::]:6881" ≠ "" ∧
    lookupD (load_state_and_config all_categories file) "alert_mask"
      = some (SettingVal.int all_categories) := by
  rcases h with h | h <;> subst h <;>
    exact ⟨rfl, rfl, rfl, rfl, by decide, rfl⟩

/-- C7 witness: first run, file absent, with a concrete all-categories
mask value. -/
theorem c7_load_session_defaults_witness :
    lookupD (load_state_and_config 2147483647 SessionFileRead.absent)
      "enable_dht" = some (SettingVal.bool true) ∧
    lookupD (load_state_and_config 2147483647 SessionFileRead.absent)
      "enable_upnp" = some (SettingVal.bool true) ∧
    lookupD (load_state_and_config 2147483647 SessionFileRead.absent)
      "enable_natpmp" = some (SettingVal.bool true) ∧
    lookupD (load_state_and_config 2147483647 SessionFileRead.absent)
      "listen_interfaces" = some (SettingVal.str "0.0.0.0:6881, [::]:6881") ∧
    "0.0.0.0:6881, [::]:6881" ≠ "" ∧
    lookupD (load_state_and_config 2147483647 SessionFileRead.absent)
      "alert_mask" = some (SettingVal.int 2147483647) :=
  c7_load_session_defaults 2147483647 SessionFileRead.absent (Or.inl rfl)

/-- C8: adding a feed whose URL is already registered is a no-op apart from
the console notice: the feed list is unchanged and no feed-state file write
occurs, so no duplicate feed definition is ever registered. -/
theorem c8_add_feed_idempotent (st : RSSState) (url filt : String)
    (h : st.feeds.any (fun f => f.url == url) = true) :
    add_feed st url filt =
      { st with events := st.events ++ [ConsoleMsg.feedExists] } := by
  unfold RSSManager.add_feed
  rw [if_pos h]

/-- C8 witness: re-adding an existing URL (even with a different pattern)
leaves feeds and file writes unchanged. -/
theorem c8_add_feed_idempotent_witness :
    add_feed { rssEmpty with feeds := [⟨"http://a", ".*"⟩] } "http://a" "1080p" =
      { rssEmpty with
        feeds := [⟨"http://a", ".*"⟩],
        events := [ConsoleMsg.feedExists] } :=
  c8_add_feed_idempotent { rssEmpty with feeds := [⟨"http://a", ".*"⟩] }
    "http://a" "1080p" (by decide)

/-- C9: `config_set("encryption", v)` for any `v` outside
`{"enable", "force", "disable"}` does not fail: the fallback
`emap.get(value, 1)` silently maps it to 1 (the `"enable"` value), both the
inbound (`pe_in_mode`) and outbound (`pe_out_mode`) encryption-mode entries
of the settings map become 1, the engine is given `pe_in_mode = 1`, and a
success message is reported. -/
theorem c9_encryption_unknown_value (st : ClientState) (v : String)
    (h1 : v ≠ "enable") (h2 : v ≠ "force") (h3 : v ≠ "disable") :
    lookupD (config_set st "encryption" v).settings "pe_in_mode"
      = some (SettingVal.int 1) ∧
    lookupD (config_set st "encryption" v).settings "pe_out_mode"
      = some (SettingVal.int 1) ∧
    lookupD (config_set st "encryption" v).engine "pe_in_mode"
      = some (SettingVal.int 1) ∧
    (config_set st "encryption" v).events =
      st.events ++ [ConsoleMsg.configSetOk "encryption" v] := by
  have he : emapGet v = 1 := by
    simp [TorrentClient.emapGet, h1, h2, h3]
  rw [config_set_encryption_eq, he]
  refine ⟨lookupD_setD_self _ _ _, ?_, lookupD_setD_self _ _ _, rfl⟩
  rw [lookupD_setD_ne _ _ _ _ (by decide)]
  exact lookupD_setD_self _ _ _

/-- C9 witness: the unrecognized value `"blah"` on the initial state. -/
theorem c9_encryption_unknown_value_witness :
    lookupD (config_set initClient "encryption" "blah").settings "pe_in_mode"
      = some (SettingVal.int 1) ∧
    lookupD (config_set initClient "encryption" "blah").settings "pe_out_mode"
      = some (SettingVal.int 1) ∧
    lookupD (config_set initClient "encryption" "blah").engine "pe_in_mode"
      = some (SettingVal.int 1) ∧
    (config_set initClient "encryption" "blah").events =
      initClient.events ++ [ConsoleMsg.configSetOk "encryption" "blah"] :=
  c9_encryption_unknown_value initClient "blah" (by decide) (by decide) (by decide)

/-- C10: every per-torrent command that resolves its target through
`_get_handle` — queue reorder, share ratio, file priority, piece priority,
super-seeding toggle — is a total no-op when the index is outside
`[0, len(handles))`: the handle registry, settings and engine are untouched,
no engine call is issued, and the only effect is the invalid-index notice. -/
theorem c10_invalid_index_noop (st : ClientState)
    (index file_idx piece_idx priority r : Int) (action : String)
    (enable : Bool)
    (h : ¬ (0 ≤ index ∧ index < (st.handles.length : Int))) :
    queue_torrent st index action =
      ({ st with events := st.events ++ [ConsoleMsg.invalidTorrentIndex] }, []) ∧
    set_share_ratio st index r =
      ({ st with events := st.events ++ [ConsoleMsg.invalidTorrentIndex] }, []) ∧
    set_torrent_file_priority st index file_idx priority =
      ({ st with events := st.events ++ [ConsoleMsg.invalidTorrentIndex] }, []) ∧
    set_torrent_piece_priority st index piece_idx priority =
      ({ st with events := st.events ++ [ConsoleMsg.invalidTorrentIndex] }, []) ∧
    toggle_super_seeding st index enable =
      ({ st with events := st.events ++ [ConsoleMsg.invalidTorrentIndex] }, []) := by
  have hg : get_handle st index =
      (none, { st with events := st.events ++ [ConsoleMsg.invalidTorrentIndex] }) := by
    unfold TorrentClient.get_handle
    rw [if_neg h]
  refine ⟨?_, ?_, ?_, ?_, ?_⟩
  · unfold TorrentClient.queue_torrent
    rw [hg]
  · unfold TorrentClient.set_share_ratio
    rw [hg]
  · unfold TorrentClient.set_torrent_file_priority
    rw [hg]
  · unfold TorrentClient.set_torrent_piece_priority
    rw [hg]
  · unfold TorrentClient.toggle_super_seeding
    rw [hg]

/-- C10 witness: index 0 against an empty handle registry (and index -1
via the general statement is covered by the hypothesis shape). -/
theorem c10_invalid_index_noop_witness :
    queue_torrent initClient 0 "up" =
      ({ initClient with events := [ConsoleMsg.invalidTorrentIndex] }, []) ∧
    set_share_ratio initClient 0 2 =
      ({ initClient with events := [ConsoleMsg.invalidTorrentIndex] }, []) ∧
    set_torrent_file_priority initClient 0 0 7 =
      ({ initClient with events := [ConsoleMsg.invalidTorrentIndex] }, []) ∧
    set_torrent_piece_priority initClient 0 0 7 =
      ({ initClient with events := [ConsoleMsg.invalidTorrentIndex] }, []) ∧
    toggle_super_seeding initClient 0 true =
      ({ initClient with events := [ConsoleMsg.invalidTorrentIndex] }, []) :=
  c10_invalid_index_noop initClient 0 0 0 7 2 "up" true (by decide)
